import Mathlib

/-!
Verification development for the InternshipFinder repository
(`src/job_finder.py`, class `CloudJobFinder`).

The Python program is shallowly embedded here.  Python strings are modelled
as `List Char` (named `Str`); Python `None`-able values as `Option Str`;
Python exceptions as explicit `Except`/error channels.  Machine behaviour of
external collaborators (the HTTP search provider and the SMTP transport) is
modelled by explicit behaviour parameters, since the program treats them as
opaque collaborators.  All definitions are executable.
-/

/-- Python strings, modelled as lists of characters. -/
abbrev Str := List Char

/-- The apostrophe character used by Python f-string quoting of queries. -/
def sqChar : Char := Char.ofNat 39

/-- Python quoting of a string between single quotes, as in `f"... '{q}' ..."`. -/
def pyQuote (q : Str) : Str := sqChar :: (q ++ [sqChar])

/-- Characters removed by Python `str.strip()` at both ends
(space, tab, newline, carriage return, vertical tab, form feed). -/
def isPySpace (c : Char) : Bool :=
  c == ' ' || c == '\t' || c == '\n' || c == '\r' ||
  c == Char.ofNat 11 || c == Char.ofNat 12

/-- Python `str.strip()`: drop surrounding whitespace on both ends. -/
def pyStrip (s : Str) : Str :=
  ((s.dropWhile isPySpace).reverse.dropWhile isPySpace).reverse

/-- Helper for Python `str.split(sep)`: returns the first field and the
remaining fields.  `pySplit` below packages them as a non-empty list. -/
def pySplitNE (c : Char) : Str → Str × List Str
  | [] => ([], [])
  | x :: rest =>
    if x == c then ([], (pySplitNE c rest).1 :: (pySplitNE c rest).2)
    else (x :: (pySplitNE c rest).1, (pySplitNE c rest).2)

/-- Python `str.split(sep)` for a one-character separator: always yields
(number of separators + 1) fields; the empty string yields one empty field. -/
def pySplit (c : Char) (s : Str) : List Str :=
  (pySplitNE c s).1 :: (pySplitNE c s).2

/-- Python `", ".join(xs)`. -/
def joinComma : List Str → Str
  | [] => []
  | [a] => a
  | a :: rest => a ++ ", ".data ++ joinComma rest

/-- Predicate `strStarts pat s`: `s` begins with `pat`. -/
def strStarts : Str → Str → Bool
  | [], _ => true
  | _ :: _, [] => false
  | a :: as, b :: bs => a == b && strStarts as bs

/-- Python `pat in s` substring containment. -/
def hasSub (pat : Str) : Str → Bool
  | [] => pat == []
  | c :: rest => strStarts pat (c :: rest) || hasSub pat rest

/-- Python `str.lower()` (the program only lowercases ASCII data). -/
def lowerStr (s : Str) : Str := s.map Char.toLower

/-! ## Configuration loader (`__init__` / `_validate_env_vars`)

The recipient e-mail pattern in the source is the regular expression
`^[a-zA-Z0-9._%+-]+@[a-zA-Z0-9.-]+\.[a-zA-Z]{2,}$` used with `re.match`.
Since `@` is in none of the character classes, a match must split the string
at its unique `@`; since the class `[a-zA-Z]` after the literal dot excludes
`.`, the literal dot of the pattern must be the last dot after the `@`.
`matchesEmail` implements exactly that decision procedure, and
`emailPatternProp` states the language of the regular expression as an
existential decomposition; the two are proved equivalent below. -/

/-- Characters of the local-part class `[a-zA-Z0-9._%+-]`. -/
def isLocalChar (c : Char) : Bool :=
  c.isAlphanum || c == '.' || c == '_' || c == '%' || c == '+' || c == '-'

/-- Characters of the domain class `[a-zA-Z0-9.-]`. -/
def isDomainChar (c : Char) : Bool :=
  c.isAlphanum || c == '.' || c == '-'

/-- Split a string at its last `.`, if any: `splitAtLastDot s = some (d, t)`
iff `s = d ++ "." ++ t` and `t` contains no dot. -/
def splitAtLastDot : Str → Option (Str × Str)
  | [] => none
  | c :: rest =>
    match splitAtLastDot rest with
    | some (d, t) => some (c :: d, t)
    | none => if c == '.' then some ([], rest) else none

/-- Decision procedure for the source's e-mail regular expression
`^[a-zA-Z0-9._%+-]+@[a-zA-Z0-9.-]+\.[a-zA-Z]{2,}$`. -/
def matchesEmail (s : Str) : Bool :=
  match pySplit '@' s with
  | [lp, dom] =>
    decide (lp ≠ []) && lp.all isLocalChar &&
    (match splitAtLastDot dom with
     | some (d, t) =>
       decide (d ≠ []) && d.all isDomainChar &&
       decide (2 ≤ t.length) && t.all (fun c => c.isAlpha)
     | none => false)
  | _ => false

/-- The language of the e-mail regular expression, stated declaratively:
a non-empty local part over `[a-zA-Z0-9._%+-]`, an `@`, a non-empty domain
over `[a-zA-Z0-9.-]`, a dot, and a top-level label of 2+ ASCII letters. -/
def emailPatternProp (s : Str) : Prop :=
  ∃ lp d t, s = lp ++ '@' :: (d ++ '.' :: t) ∧
    lp ≠ [] ∧ (∀ c ∈ lp, isLocalChar c = true) ∧
    d ≠ [] ∧ (∀ c ∈ d, isDomainChar c = true) ∧
    2 ≤ t.length ∧ (∀ c ∈ t, c.isAlpha = true)

/-- The process environment read in `__init__`: `os.getenv` yields `none`
when a variable is unset.  `CUSTOM_QUERY` defaults to the empty string. -/
structure Env where
  email : Option Str
  emailPassword : Option Str
  googleApiKey : Option Str
  googleCseId : Option Str
  sendTo : Option Str
  customQuery : Str

/-- Python falsiness of an optional string: `None` or the empty string. -/
def falsy : Option Str → Bool
  | none => true
  | some s => decide (s = [])

/-- The `required_vars` dict of `_validate_env_vars`, in source order. -/
def requiredVars (env : Env) : List (Str × Option Str) :=
  [("EMAIL".data, env.email),
   ("EMAIL_PASSWORD".data, env.emailPassword),
   ("GOOGLE_API_KEY".data, env.googleApiKey),
   ("GOOGLE_CSE_ID".data, env.googleCseId),
   ("SEND_TO".data, env.sendTo)]

/-- Model of `missing_vars`: names of required variables whose value is falsy. -/
def missingVars (env : Env) : List Str :=
  ((requiredVars env).filter (fun p => falsy p.2)).map (fun p => p.1)

/-- Model of `_validate_env_vars`: raises `ValueError` (modelled as `Except.error`
carrying the message) when variables are missing or recipients are invalid;
otherwise returns the parsed recipient list. -/
def validateEnvVars (env : Env) : Except Str (List Str) :=
  if missingVars env ≠ [] then
    Except.error ("Missing required environment variables: ".data ++
      joinComma (missingVars env))
  else
    let recipients := (pySplit ',' (env.sendTo.getD [])).map pyStrip
    let invalid := recipients.filter (fun e => !(matchesEmail e))
    if invalid ≠ [] then
      Except.error ("Invalid email format(s): ".data ++ joinComma invalid)
    else
      Except.ok recipients

/-! ## Result curator (`_format_results`) -/

/-- A `SearchResult` as built in `search_jobs`: title, link, snippet and the
originating query. -/
structure JobResult where
  title : Str
  link : Str
  snippet : Str
  query : Str
deriving DecidableEq

/-- Deduplication loop of `_format_results`: an insertion-ordered dict keyed
by `result['link']`; a result is inserted only when its link is truthy
(non-empty) and not already a key (`if url and url not in unique_results`).
`seen` is the set of keys inserted so far; the returned list is
`unique_results.values()` in insertion order. -/
def dedupAux (seen : List Str) : List JobResult → List JobResult
  | [] => []
  | r :: rest =>
    if r.link ≠ [] ∧ r.link ∉ seen then r :: dedupAux (r.link :: seen) rest
    else dedupAux seen rest

/-- Model of `unique_results.values()` for an initially empty dict. -/
def dedupResults (results : List JobResult) : List JobResult :=
  dedupAux [] results

/-- The `key_terms` list used for scoring. -/
def keyTerms : List Str :=
  ["software".data, "engineer".data, "developer".data, "sde".data,
   "intern".data, "2025".data]

/-- The sort key: `sum(1 for term in key_terms if term.lower() in
x['title'].lower())`. -/
def score (r : JobResult) : Nat :=
  keyTerms.countP (fun t => hasSub (lowerStr t) (lowerStr r.title))

/-- Stable insertion for descending order: `x` is placed before the first
element whose key is at most `key x`, so among equal keys the earlier input
element stays first. -/
def insertDesc {α : Type} (key : α → Nat) (x : α) : List α → List α
  | [] => [x]
  | y :: ys => if key y ≤ key x then x :: y :: ys else y :: insertDesc key x ys

/-- Python `sorted(l, key=key, reverse=True)`: a stable sort into descending
key order (CPython's sort is documented stable, and with `reverse=True`
elements with equal keys still keep their original order). -/
def sortedBy {α : Type} (key : α → Nat) : List α → List α
  | [] => []
  | x :: xs => insertDesc key x (sortedBy key xs)

/-- Snippet display rule: `result['snippet'][:250] + "..." if
len(result['snippet']) > 250 else result['snippet']`. -/
def truncSnippet (s : Str) : Str :=
  if 250 < s.length then s.take 250 ++ "...".data else s

/-- The per-result blocks of the report, with 1-based numbering
(`enumerate(sorted_results, 1)`). -/
def renderEntries (i : Nat) : List JobResult → Str
  | [] => []
  | r :: rest =>
    (toString i).data ++ ". ".data ++ r.title ++ "\n".data ++
    "   ".data ++ truncSnippet r.snippet ++ "\n".data ++
    "   ".data ++ r.link ++ "\n".data ++
    "   Found via: ".data ++ r.query ++ "\n\n".data ++
    renderEntries (i + 1) rest

/-- Report header: title line, generation timestamp, count line, separator.
The generation timestamp string is passed in as a parameter (the source
formats `datetime.now()`). -/
def reportHeader (now1 : Str) (uniqueCount : Nat) : Str :=
  "Fall 2025 SWE Internship Search Results\n".data ++
  "Generated: ".data ++ now1 ++ "\n".data ++
  "Found ".data ++ (toString uniqueCount).data ++ " unique opportunities\n".data ++
  List.replicate 70 '=' ++ "\n\n".data

/-- Report footer: summary block, completion timestamp, tip lines. -/
def reportFooter (now2 : Str) (uniqueCount : Nat) : Str :=
  "\nSearch Summary:\n".data ++
  "   • Total unique positions: ".data ++ (toString uniqueCount).data ++ "\n".data ++
  "   • Search completed: ".data ++ now2 ++ "\n".data ++
  "   • Next search: Tomorrow at the same time\n\n".data ++
  "Tip: Apply early and customize your applications!\n".data ++
  "Automated by GitHub Actions with Google Custom Search API".data

/-- Model of `_format_results`: empty input short-circuits to the fixed message;
otherwise deduplicate, sort by score descending (stably), and render
header, entries and footer.  `now1`/`now2` are the two `datetime.now()`
readings. -/
def formatResults (now1 now2 : Str) (results : List JobResult) : Str :=
  if results = [] then "No internship results found in this search.".data
  else
    reportHeader now1 (dedupResults results).length ++
    renderEntries 1 (sortedBy score (dedupResults results)) ++
    reportFooter now2 (dedupResults results).length

/-! ## Query runner (`search_jobs`)

The search provider is an external collaborator; its behaviour is a
parameter.  One `Attempt` describes what `requests.get` does for one issued
request: either raise a `requests.exceptions.RequestException`, or return a
response with an HTTP status and a JSON body.  The body channel also allows
an arbitrary exception from response parsing (`Except.error`), which lets
the totality claims quantify over unexpected exceptions inside the search
stage. -/

/-- A Python exception, classified the way `search_jobs` classifies it:
`reqExc` is a `requests.exceptions.RequestException` (caught by the
per-query handler), `otherExc` is any other exception (reaching the outer
handler).  The payload is `str(e)`. -/
inductive Exc where
  | reqExc (msg : Str)
  | otherExc (msg : Str)
deriving DecidableEq

/-- Model of `str(e)` for a modelled exception. -/
def Exc.str : Exc → Str
  | reqExc m => m
  | otherExc m => m

/-- One raw item of the provider's JSON `items` array; each field may be
absent (`item.get` with a default). -/
structure RawItem where
  title : Option Str
  link : Option Str
  snippet : Option Str
deriving DecidableEq

/-- A parsed JSON response body: an optional `"error"` payload and the
`"items"` array (`data.get("items", [])`). -/
structure Body where
  errorPayload : Option Str
  items : List RawItem

/-- Behaviour of one `requests.get` call. -/
inductive Attempt where
  | raises (msg : Str)
  | returns (status : Nat) (body : Except Exc Body)

/-- Message of the `requests.exceptions.HTTPError` raised by
`response.raise_for_status()`; what matters to the source is that it
contains the decimal status code (checked via `"429" in str(e)`). -/
def statusMsg (status : Nat) : Str := (toString status).data ++ " Error".data

/-- Log levels of the `logging` module as used by the program. -/
inductive LogLevel where
  | info
  | warning
  | error
deriving DecidableEq

/-- The hard-coded `job_indicators` list. -/
def jobIndicators : List Str :=
  ["careers".data, "jobs".data, "job".data, "internship".data, "intern".data,
   "apply".data, "opportunities".data, "hiring".data, "employment".data,
   "greenhouse".data, "lever".data, "workday".data, "taleo".data,
   "bamboohr".data]

/-- The item filter: keep an item when some indicator occurs in the
lowercased link or the lowercased title (`item.get(..., "")` defaults). -/
def keepItem (item : RawItem) : Bool :=
  jobIndicators.any (fun ind =>
    hasSub ind (lowerStr (item.link.getD [])) ||
    hasSub ind (lowerStr (item.title.getD [])))

/-- Building the stored result dict for a kept item, with the source's
defaults, tagged with the originating query. -/
def mkResult (query : Str) (item : RawItem) : JobResult :=
  { title := item.title.getD ("No title".data),
    link := item.link.getD [],
    snippet := item.snippet.getD ("No description".data),
    query := query }

/-- Message `f"Rate limit hit for query '{query}'. Waiting 5 seconds..."`. -/
def rateLimitHitMsg (q : Str) : Str :=
  "Rate limit hit for query ".data ++ pyQuote q ++ ". Waiting 5 seconds...".data

/-- Message `f"Rate limit exceeded for query '{query}'. Skipping..."`. -/
def rateLimitSkipMsg (q : Str) : Str :=
  "Rate limit exceeded for query ".data ++ pyQuote q ++ ". Skipping...".data

/-- Message `f"API request failed for query '{query}': {e}"`. -/
def requestFailedMsg (q msg : Str) : Str :=
  "API request failed for query ".data ++ pyQuote q ++ ": ".data ++ msg

/-- Processing of the final response of a query: `raise_for_status()`
(raises a `RequestException` whose message carries the status for 4xx/5xx),
then `response.json()` (whose possible exception is the body's error
channel), then the provider-level `"error"` payload check (log and skip),
then the item filter. -/
def finishResponse (query : Str) (status : Nat) (body : Except Exc Body) :
    Except Exc (List JobResult) × List (LogLevel × Str) :=
  if 400 ≤ status ∧ status < 600 then
    (Except.error (Exc.reqExc (statusMsg status)), [])
  else
    match body with
    | Except.error e => (Except.error e, [])
    | Except.ok b =>
      match b.errorPayload with
      | some err => (Except.ok [], [(LogLevel.error, "Google API error: ".data ++ err)])
      | none => (Except.ok ((b.items.filter keepItem).map (mkResult query)), [])

/-- Outcome of one query's inner `try` block, plus its observable effects:
requests issued, `time.sleep` calls, and warning/error log lines
(info-level progress lines are not tracked). -/
structure QueryOut where
  outcome : Except Exc (List JobResult)
  requests : Nat
  sleeps : List Nat
  logs : List (LogLevel × Str)

/-- One query of the loop body: issue the request (`b 0`); on a 429 status
log a warning, `time.sleep(5)` and retry exactly once (`b 1`); then process
the final response. -/
def runQuery (query : Str) (b : Nat → Attempt) : QueryOut :=
  match b 0 with
  | Attempt.raises msg => ⟨Except.error (Exc.reqExc msg), 1, [], []⟩
  | Attempt.returns st0 body0 =>
    if st0 == 429 then
      match b 1 with
      | Attempt.raises msg =>
        ⟨Except.error (Exc.reqExc msg), 2, [5], [(LogLevel.warning, rateLimitHitMsg query)]⟩
      | Attempt.returns st1 body1 =>
        let f := finishResponse query st1 body1
        ⟨f.1, 2, [5], (LogLevel.warning, rateLimitHitMsg query) :: f.2⟩
    else
      let f := finishResponse query st0 body0
      ⟨f.1, 1, [], f.2⟩

/-- Accumulated effects of the query loop. -/
structure SearchAcc where
  results : List JobResult
  requests : Nat
  sleeps : List Nat
  logs : List (LogLevel × Str)

/-- The `for i, query in enumerate(queries, 1)` loop.  `i` is the 1-based
position (pacing `time.sleep(1)` for every query except the first).  A
`RequestException` is caught (warning when its message contains "429",
error otherwise) and the loop continues; any other exception aborts the
loop and is reported in the second component (to be caught by the outer
handler of `search_jobs`). -/
def queryLoop (i : Nat) : List (Str × (Nat → Attempt)) → SearchAcc × Option Exc
  | [] => (⟨[], 0, [], []⟩, none)
  | (q, b) :: rest =>
    let pacing : List Nat := if 1 < i then [1] else []
    let out := runQuery q b
    match out.outcome with
    | Except.ok rs =>
      (⟨rs ++ (queryLoop (i + 1) rest).1.results,
        out.requests + (queryLoop (i + 1) rest).1.requests,
        pacing ++ out.sleeps ++ (queryLoop (i + 1) rest).1.sleeps,
        out.logs ++ (queryLoop (i + 1) rest).1.logs⟩,
       (queryLoop (i + 1) rest).2)
    | Except.error (Exc.reqExc msg) =>
      let catchLog :=
        if hasSub ("429".data) msg then (LogLevel.warning, rateLimitSkipMsg q)
        else (LogLevel.error, requestFailedMsg q msg)
      (⟨(queryLoop (i + 1) rest).1.results,
        out.requests + (queryLoop (i + 1) rest).1.requests,
        pacing ++ out.sleeps ++ (queryLoop (i + 1) rest).1.sleeps,
        out.logs ++ catchLog :: (queryLoop (i + 1) rest).1.logs⟩,
       (queryLoop (i + 1) rest).2)
    | Except.error (Exc.otherExc msg) =>
      (⟨[], out.requests, pacing ++ out.sleeps, out.logs⟩, some (Exc.otherExc msg))

/-- The hard-coded default query list of `search_jobs`. -/
def defaultQueries : List Str :=
  ["Spring 2026 Software Engineer internship applications open".data,
   "Spring 2026 software internship remote".data,
   "Spring 2026 FAANG software internship".data,
   "Spring 2026 startup software internship".data,
   "Spring 2026 React full stack internship".data,
   "Spring 2026 SWE internship hiring now".data,
   "2026 Software Engineer Full time applications open".data,
   "2026 Software Engineer hiring now".data,
   "SDE new grad 2026".data,
   "SWE new grad 2026".data,
   "software engineer new grad 2026".data,
   "software developer new grad 2026".data,
   "software engineer entry level 2026".data,
   "software developer entry level 2026".data,
   "tech company new grad software".data]

/-- Query selection: a stripped non-empty `CUSTOM_QUERY` overrides the
default list as a single-element list. -/
def searchQueries (customQuery : Str) : List Str :=
  if pyStrip customQuery ≠ [] then [pyStrip customQuery] else defaultQueries

/-- Observable result of `search_jobs`: the returned string, the raw result
list collected, whether the outer `except Exception` handler fired (and on
what exception), and the effects. -/
structure SearchOut where
  report : Str
  results : List JobResult
  aborted : Option Exc
  requests : Nat
  sleeps : List Nat
  logs : List (LogLevel × Str)

/-- Model of `search_jobs`: run the loop over the selected queries (the behaviour
`B k` describes the provider for the `k`-th query, 0-based), then format.
The outer handler turns any exception into the string
`f"Error searching for jobs: {e}"`; `search_jobs` never raises. -/
def searchJobs (customQuery : Str) (B : Nat → Nat → Attempt) (now1 now2 : Str) :
    SearchOut :=
  let qs := searchQueries customQuery
  let r := queryLoop 1 ((qs.enum).map (fun p => (p.2, B p.1)))
  match r.2 with
  | some e =>
    { report := "Error searching for jobs: ".data ++ e.str,
      results := r.1.results, aborted := some e, requests := r.1.requests,
      sleeps := r.1.sleeps,
      logs := r.1.logs ++
        [(LogLevel.error, "Unexpected error during job search: ".data ++ e.str)] }
  | none =>
    { report := formatResults now1 now2 r.1.results,
      results := r.1.results, aborted := none, requests := r.1.requests,
      sleeps := r.1.sleeps, logs := r.1.logs }

/-! ## Notifier (`send_email`) and top level (`run` / `main`) -/

/-- Behaviour of the SMTP transport for the single send. -/
inductive EmailBehavior where
  | success
  | authFail (detail : Str)
  | recipientsRefused (addrs : List Str)
  | otherFail (msg : Str)

/-- Python `repr` of a list of strings, as printed by
`f"{list(e.recipients.keys())}"`. -/
def pyListRepr (xs : List Str) : Str :=
  '[' :: joinComma (xs.map pyQuote) ++ [']']

/-- Model of `send_email`: each failure mode is re-raised as a distinct wrapped
`Exception` (modelled as `Except.error` carrying `str(e)`). -/
def sendEmail (eb : EmailBehavior) : Except Str Unit :=
  match eb with
  | EmailBehavior.success => Except.ok ()
  | EmailBehavior.authFail _ =>
    Except.error ("SMTP Authentication failed. Check your email credentials.".data)
  | EmailBehavior.recipientsRefused addrs =>
    Except.error ("Invalid recipient email address(es): ".data ++ pyListRepr addrs)
  | EmailBehavior.otherFail msg =>
    Except.error ("Email sending failed: ".data ++ msg)

/-- Observable result of `run`: the return value or re-raised exception,
the body handed to `send_email`, the `error.txt` side file, the requests
issued, and the failure log line. -/
structure RunOut where
  result : Except Str Bool
  emailBody : Str
  errorFile : Option Str
  requests : Nat
  logs : List (LogLevel × Str)

/-- Model of `run`: search (which never raises), then send.  Any exception reaching
`run`'s `try` is logged as `f"Application failed: {e}"`, written to
`error.txt` as `f"Error occurred at {now}: {e}"` (timestamp parameter
`errTs`), and re-raised. -/
def runModel (customQuery : Str) (B : Nat → Nat → Attempt) (eb : EmailBehavior)
    (now1 now2 errTs : Str) : RunOut :=
  let s := searchJobs customQuery B now1 now2
  match sendEmail eb with
  | Except.ok _ =>
    { result := Except.ok true, emailBody := s.report, errorFile := none,
      requests := s.requests, logs := s.logs }
  | Except.error e =>
    { result := Except.error e, emailBody := s.report,
      errorFile := some ("Error occurred at ".data ++ errTs ++ ": ".data ++ e),
      requests := s.requests,
      logs := s.logs ++ [(LogLevel.error, "Application failed: ".data ++ e)] }

/-- Observable result of `main`: the process exit code, the requests issued
(network activity), and the `error.txt` side file. -/
structure MainOut where
  exitCode : Nat
  requests : Nat
  errorFile : Option Str

/-- Model of `main`: construct `CloudJobFinder` (which validates the environment
before anything else); a constructor exception exits with code 1 before any
network request; otherwise `run` — `True` exits 0, a re-raised exception
exits 1. -/
def mainModel (env : Env) (B : Nat → Nat → Attempt) (eb : EmailBehavior)
    (now1 now2 errTs : Str) : MainOut :=
  match validateEnvVars env with
  | Except.error _ => ⟨1, 0, none⟩
  | Except.ok _ =>
    let r := runModel env.customQuery B eb now1 now2 errTs
    match r.result with
    | Except.ok _ => ⟨0, r.requests, r.errorFile⟩
    | Except.error _ => ⟨1, r.requests, r.errorFile⟩

/-! ## Theorems -/

/-- C9: when the raw result list given to the curator is empty, it returns
exactly the fixed "no results" message, and in particular the report's
header line and summary footer do not occur in the output. -/
theorem empty_input_fixed_message (now1 now2 : Str) :
    formatResults now1 now2 [] = "No internship results found in this search.".data ∧
    hasSub ("Fall 2025 SWE Internship Search Results".data)
      (formatResults now1 now2 []) = false ∧
    hasSub ("Search Summary:".data) (formatResults now1 now2 []) = false := by
  have h : formatResults now1 now2 [] =
      "No internship results found in this search.".data := rfl
  refine ⟨h, ?_, ?_⟩ <;> rw [h] <;> decide

/-- C8: the snippet display rule used by the rendered report: a snippet of
length at most 250 is shown verbatim; a longer snippet is shown as exactly
its first 250 characters followed by the fixed `"..."` marker; and each
rendered result block contains the so-truncated snippet. -/
theorem snippet_truncation_rule (s : Str) (i : Nat) (r : JobResult)
    (rest : List JobResult) :
    (s.length ≤ 250 → truncSnippet s = s) ∧
    (250 < s.length → truncSnippet s = s.take 250 ++ "...".data) ∧
    (∃ a b, renderEntries i (r :: rest) = a ++ truncSnippet r.snippet ++ b) := by
  refine ⟨?_, ?_, ?_⟩
  · intro h
    simp [truncSnippet, Nat.not_lt.mpr h]
  · intro h
    simp [truncSnippet, h]
  · refine ⟨(toString i).data ++ ". ".data ++ r.title ++ "\n".data ++ "   ".data,
      "\n".data ++ "   ".data ++ r.link ++ "\n".data ++ "   Found via: ".data ++
        r.query ++ "\n\n".data ++ renderEntries (i + 1) rest, ?_⟩
    simp [renderEntries]

/-- A sample result used to instantiate witness theorems. -/
def sampleResult : JobResult :=
  ⟨"Software Engineer Intern 2026".data, "a.com/careers".data, "snip".data, "q1".data⟩

set_option maxRecDepth 10000 in
/-- Witness for C8 at concrete inputs: a 3-character snippet is shown
verbatim, a 251-character snippet is cut to 250 characters plus the marker. -/
theorem snippet_truncation_rule_witness :
    ("abc".data.length ≤ 250 ∧ truncSnippet ("abc".data) = "abc".data) ∧
    (250 < (List.replicate 251 'a').length ∧
      truncSnippet (List.replicate 251 'a') =
        (List.replicate 251 'a').take 250 ++ "...".data) :=
  ⟨⟨by simp, (snippet_truncation_rule ("abc".data) 1 sampleResult []).1 (by simp)⟩,
   ⟨by simp,
    (snippet_truncation_rule (List.replicate 251 'a') 1 sampleResult []).2.1 (by simp)⟩⟩

/-- C3: when a query's search request returns HTTP 429, the runner sleeps
the longer fixed delay (5 seconds, versus the 1-second pacing delay) and
retries the same request exactly once — exactly 2 requests are issued for
the query.  If the retry also returns 429, `raise_for_status` raises, the
handler logs the rate-limit warning, the query contributes zero results,
and the loop continues with the remaining queries, with no exception
escaping the loop because of this query. -/
theorem rate_limit_retry_once (q : Str) (b : Nat → Attempt)
    (body0 body1 : Except Exc Body) (i : Nat)
    (rest : List (Str × (Nat → Attempt)))
    (h0 : b 0 = Attempt.returns 429 body0) (h1 : b 1 = Attempt.returns 429 body1) :
    (runQuery q b).requests = 2 ∧
    (runQuery q b).sleeps = [5] ∧
    (runQuery q b).outcome = Except.error (Exc.reqExc (statusMsg 429)) ∧
    (queryLoop i ((q, b) :: rest)).1.results = (queryLoop (i + 1) rest).1.results ∧
    (queryLoop i ((q, b) :: rest)).2 = (queryLoop (i + 1) rest).2 ∧
    (LogLevel.warning, rateLimitSkipMsg q) ∈ (queryLoop i ((q, b) :: rest)).1.logs := by
  have hfin : finishResponse q 429 body1 =
      (Except.error (Exc.reqExc (statusMsg 429)), []) := by
    simp [finishResponse]
  have hq : runQuery q b =
      ⟨Except.error (Exc.reqExc (statusMsg 429)), 2, [5],
       [(LogLevel.warning, rateLimitHitMsg q)]⟩ := by
    rw [runQuery, h0]
    simp [h1, hfin]
  have h429 : hasSub ("429".data) (statusMsg 429) = true := by decide
  refine ⟨by rw [hq], by rw [hq], by rw [hq], ?_, ?_, ?_⟩ <;>
    simp [queryLoop, hq, h429]

/-- A provider behaviour answering every request with HTTP 429. -/
def always429 : Nat → Attempt :=
  fun _ => Attempt.returns 429 (Except.ok ⟨none, []⟩)

/-- Witness for C3: a query whose two attempts both return 429 issues
exactly 2 requests, sleeps 5 seconds once, yields no results, and logs the
skip warning. -/
theorem rate_limit_retry_once_witness :
    always429 0 = Attempt.returns 429 (Except.ok ⟨none, []⟩) ∧
    (runQuery ("x".data) always429).requests = 2 ∧
    (runQuery ("x".data) always429).sleeps = [5] ∧
    (queryLoop 1 [(("x".data), always429)]).1.results = (queryLoop 2 []).1.results ∧
    (LogLevel.warning, rateLimitSkipMsg ("x".data)) ∈
      (queryLoop 1 [(("x".data), always429)]).1.logs :=
  ⟨rfl,
   (rate_limit_retry_once ("x".data) always429 (Except.ok ⟨none, []⟩)
     (Except.ok ⟨none, []⟩) 1 [] rfl rfl).1,
   (rate_limit_retry_once ("x".data) always429 (Except.ok ⟨none, []⟩)
     (Except.ok ⟨none, []⟩) 1 [] rfl rfl).2.1,
   (rate_limit_retry_once ("x".data) always429 (Except.ok ⟨none, []⟩)
     (Except.ok ⟨none, []⟩) 1 [] rfl rfl).2.2.2.1,
   (rate_limit_retry_once ("x".data) always429 (Except.ok ⟨none, []⟩)
     (Except.ok ⟨none, []⟩) 1 [] rfl rfl).2.2.2.2.2⟩

/-- A provider behaviour that answers a query's requests with HTTP 200 and a
well-formed body carrying the given items. -/
def okBehavior (items : List RawItem) : Nat → Attempt :=
  fun _ => Attempt.returns 200 (Except.ok ⟨none, items⟩)

/-- C7: over successful responses, an item is kept iff `keepItem` holds (a
job indicator occurs case-insensitively in its URL or title); each kept item
is tagged with the query that produced it; and the collected raw list is the
concatenation of per-query kept items, in query order and, within a query,
in provider-response order. -/
theorem kept_items_concatenation (i : Nat) (qis : List (Str × List RawItem)) :
    (queryLoop i (qis.map (fun p => (p.1, okBehavior p.2)))).1.results =
      (qis.map (fun p => ((p.2.filter keepItem).map (mkResult p.1)))).flatten ∧
    (queryLoop i (qis.map (fun p => (p.1, okBehavior p.2)))).2 = none ∧
    (∀ q item, (mkResult q item).query = q) := by
  refine ⟨?_, ?_, fun q item => rfl⟩ <;>
  · induction qis generalizing i with
    | nil => simp [queryLoop]
    | cons p rest ih =>
      have hrun : runQuery p.1 (okBehavior p.2) =
          ⟨Except.ok ((p.2.filter keepItem).map (mkResult p.1)), 1, [], []⟩ := by
        simp [runQuery, okBehavior, finishResponse]
      simp [queryLoop, hrun, ih]

/-- C10: `search_jobs` is total with respect to exceptions: for every
provider behaviour it returns a string — the formatted report when no
unexpected exception occurred, and the string
`"Error searching for jobs: " ++ str(e)` when the outer handler caught `e`
— and `run` passes that returned string on as the e-mail body. -/
theorem search_jobs_total (cq : Str) (B : Nat → Nat → Attempt)
    (now1 now2 errTs : Str) (eb : EmailBehavior) :
    ((searchJobs cq B now1 now2).aborted = none →
      (searchJobs cq B now1 now2).report =
        formatResults now1 now2 (searchJobs cq B now1 now2).results) ∧
    (∀ e, (searchJobs cq B now1 now2).aborted = some e →
      (searchJobs cq B now1 now2).report =
        "Error searching for jobs: ".data ++ e.str) ∧
    (runModel cq B eb now1 now2 errTs).emailBody =
      (searchJobs cq B now1 now2).report := by
  refine ⟨?_, ?_, ?_⟩
  · intro h
    rcases hE : (queryLoop 1 (((searchQueries cq).enum).map
        (fun p => (p.2, B p.1)))).2 with _ | e <;>
      simp [searchJobs, hE] at h ⊢
  · intro e h
    rcases hE : (queryLoop 1 (((searchQueries cq).enum).map
        (fun p => (p.2, B p.1)))).2 with _ | e2 <;>
      simp [searchJobs, hE] at h ⊢
    subst h
    rfl
  · rcases h2 : sendEmail eb with _ | e2 <;> simp [runModel, h2]

/-- A provider behaviour whose response body parsing raises an exception
that is not a `RequestException` (modelling an unexpected error inside the
search stage). -/
def boomBehavior : Nat → Nat → Attempt :=
  fun _ _ => Attempt.returns 200 (Except.error (Exc.otherExc ("boom".data)))

/-- A provider behaviour answering every request of every query with an
empty successful response. -/
def quietBehavior : Nat → Nat → Attempt :=
  fun _ _ => Attempt.returns 200 (Except.ok ⟨none, []⟩)

/-- Witness for C10: under `quietBehavior` the report is the formatted (empty)
result list; under `boomBehavior` the outer handler catches the exception and
the report is the error string. -/
theorem search_jobs_total_witness :
    (searchJobs ("x".data) quietBehavior [] []).aborted = none ∧
    (searchJobs ("x".data) quietBehavior [] []).report =
      formatResults [] [] (searchJobs ("x".data) quietBehavior [] []).results ∧
    (searchJobs ("x".data) boomBehavior [] []).aborted =
      some (Exc.otherExc ("boom".data)) ∧
    (searchJobs ("x".data) boomBehavior [] []).report =
      "Error searching for jobs: ".data ++ (Exc.otherExc ("boom".data)).str :=
  ⟨rfl,
   (search_jobs_total ("x".data) quietBehavior [] [] [] EmailBehavior.success).1 rfl,
   rfl,
   (search_jobs_total ("x".data) boomBehavior [] [] [] EmailBehavior.success).2.1
     (Exc.otherExc ("boom".data)) rfl⟩

/-- A fully valid environment used in the top-level counterexamples and
witnesses; its custom query restricts the run to a single query. -/
def goodEnv : Env :=
  { email := some ("me@example.com".data),
    emailPassword := some ("pw".data),
    googleApiKey := some ("key".data),
    googleCseId := some ("cse".data),
    sendTo := some ("me@example.com".data),
    customQuery := "x".data }

/-- Counterexample to C2 as stated: an unexpected exception raised during
the run inside the search stage (here: response parsing raising a
non-`RequestException`) is NOT re-raised: the outer handler of
`search_jobs` swallows it, `run` returns `True`, no error file is written,
and the process exits 0. -/
theorem search_exception_swallowed_counterexample :
    (searchJobs (goodEnv.customQuery) boomBehavior [] []).aborted =
      some (Exc.otherExc ("boom".data)) ∧
    (mainModel goodEnv boomBehavior EmailBehavior.success [] [] []).exitCode = 0 ∧
    (mainModel goodEnv boomBehavior EmailBehavior.success [] [] []).errorFile =
      none := by
  refine ⟨rfl, ?_, ?_⟩ <;> rfl

/-- C2 (amended): every exception that escapes to the top of `run` — which,
since `search_jobs` never raises, means every delivery error and any other
exception raised outside the search stage — is caught once there, logged as
an application failure, written to the error file, and re-raised so that
the process exits 1; unexpected exceptions inside the search stage are
instead caught within `search_jobs` and turned into an error-report string
(see the counterexample). -/
theorem toplevel_exception_logged_written_reraised (env : Env)
    (B : Nat → Nat → Attempt) (eb : EmailBehavior) (e : Str)
    (now1 now2 errTs : Str) (rs : List Str)
    (hsend : sendEmail eb = Except.error e)
    (hok : validateEnvVars env = Except.ok rs) :
    (runModel env.customQuery B eb now1 now2 errTs).result = Except.error e ∧
    (runModel env.customQuery B eb now1 now2 errTs).errorFile =
      some ("Error occurred at ".data ++ errTs ++ ": ".data ++ e) ∧
    (LogLevel.error, "Application failed: ".data ++ e) ∈
      (runModel env.customQuery B eb now1 now2 errTs).logs ∧
    (mainModel env B eb now1 now2 errTs).exitCode = 1 := by
  refine ⟨?_, ?_, ?_, ?_⟩ <;> simp [runModel, hsend, mainModel, hok]

/-- Witness for the amended C2: with a valid environment and an SMTP
authentication failure, `run` re-raises the wrapped delivery error, writes
the error file, and the process exits 1. -/
theorem toplevel_exception_witness :
    sendEmail (EmailBehavior.authFail []) =
      Except.error ("SMTP Authentication failed. Check your email credentials.".data) ∧
    (runModel goodEnv.customQuery quietBehavior (EmailBehavior.authFail [])
      [] [] ("TS".data)).errorFile =
      some ("Error occurred at ".data ++ "TS".data ++ ": ".data ++
        "SMTP Authentication failed. Check your email credentials.".data) ∧
    (mainModel goodEnv quietBehavior (EmailBehavior.authFail []) [] []
      ("TS".data)).exitCode = 1 :=
  ⟨rfl,
   (toplevel_exception_logged_written_reraised goodEnv quietBehavior
     (EmailBehavior.authFail [])
     ("SMTP Authentication failed. Check your email credentials.".data)
     [] [] ("TS".data) [("me@example.com".data)] rfl rfl).2.1,
   (toplevel_exception_logged_written_reraised goodEnv quietBehavior
     (EmailBehavior.authFail [])
     ("SMTP Authentication failed. Check your email credentials.".data)
     [] [] ("TS".data) [("me@example.com".data)] rfl rfl).2.2.2⟩

/-- Every member of a list occurs as a substring of its `", "`-join. -/
theorem joinComma_decomp {name : Str} : ∀ {l : List Str}, name ∈ l →
    ∃ a b, joinComma l = a ++ name ++ b := by
  intro l
  induction l with
  | nil => intro h; cases h
  | cons s rest ih =>
    intro h
    rcases List.mem_cons.mp h with h | h
    · subst h
      rcases rest with _ | ⟨u, t⟩
      · exact ⟨[], [], by simp [joinComma]⟩
      · exact ⟨[], ", ".data ++ joinComma (u :: t), by simp [joinComma]⟩
    · rcases rest with _ | ⟨u, t⟩
      · cases h
      · obtain ⟨a, b, hab⟩ := ih h
        exact ⟨s ++ ", ".data ++ a, b, by simp [joinComma, hab]⟩

/-- C6: when any required setting is missing or empty, the loader fails with
the configuration error that enumerates the missing settings — every missing
name occurs in the message, not only the first — and the process exits with
code 1 having issued zero network requests. -/
theorem missing_settings_all_named (env : Env) (B : Nat → Nat → Attempt)
    (eb : EmailBehavior) (now1 now2 errTs : Str)
    (h : missingVars env ≠ []) :
    validateEnvVars env = Except.error
      ("Missing required environment variables: ".data ++
        joinComma (missingVars env)) ∧
    (∀ name ∈ missingVars env, ∃ a b,
      "Missing required environment variables: ".data ++
        joinComma (missingVars env) = a ++ name ++ b) ∧
    (mainModel env B eb now1 now2 errTs).exitCode = 1 ∧
    (mainModel env B eb now1 now2 errTs).requests = 0 := by
  have hv : validateEnvVars env = Except.error
      ("Missing required environment variables: ".data ++
        joinComma (missingVars env)) := by
    simp [validateEnvVars, h]
  refine ⟨hv, ?_, ?_, ?_⟩
  · intro name hn
    obtain ⟨a, b, hab⟩ := joinComma_decomp hn
    exact ⟨"Missing required environment variables: ".data ++ a, b,
      by rw [hab]; simp⟩
  · simp [mainModel, hv]
  · simp [mainModel, hv]

/-- The environment with every variable unset. -/
def emptyEnv : Env :=
  { email := none, emailPassword := none, googleApiKey := none,
    googleCseId := none, sendTo := none, customQuery := [] }

/-- Witness for C6: with every variable unset, all five required settings
are reported missing in one error and no request is issued. -/
theorem missing_settings_all_named_witness :
    missingVars emptyEnv ≠ [] ∧
    missingVars emptyEnv =
      ["EMAIL".data, "EMAIL_PASSWORD".data, "GOOGLE_API_KEY".data,
       "GOOGLE_CSE_ID".data, "SEND_TO".data] ∧
    validateEnvVars emptyEnv = Except.error
      ("Missing required environment variables: ".data ++
        joinComma (missingVars emptyEnv)) ∧
    (mainModel emptyEnv quietBehavior EmailBehavior.success [] [] []).exitCode = 1 ∧
    (mainModel emptyEnv quietBehavior EmailBehavior.success [] [] []).requests = 0 :=
  ⟨by decide, by decide,
   (missing_settings_all_named emptyEnv quietBehavior EmailBehavior.success
     [] [] [] (by decide)).1,
   (missing_settings_all_named emptyEnv quietBehavior EmailBehavior.success
     [] [] [] (by decide)).2.2.1,
   (missing_settings_all_named emptyEnv quietBehavior EmailBehavior.success
     [] [] [] (by decide)).2.2.2⟩


/-- The separator never occurs in the first field of `pySplitNE`. -/
theorem sep_not_mem_pySplitNE_fst (c : Char) : ∀ s : Str,
    c ∉ (pySplitNE c s).1 := by
  intro s
  induction s with
  | nil => simp [pySplitNE]
  | cons x rest ih =>
    by_cases hx : x = c
    · simp [pySplitNE, hx]
    · have hx' : (x == c) = false := by simp [hx]
      simp only [pySplitNE, hx', Bool.false_eq_true, if_false, List.mem_cons, not_or]
      exact ⟨fun h => hx h.symm, ih⟩

/-- If `pySplitNE` yields a single field, the string is that field. -/
theorem pySplitNE_single (c : Char) : ∀ s : Str,
    (pySplitNE c s).2 = [] → s = (pySplitNE c s).1 := by
  intro s
  induction s with
  | nil => intro _; rfl
  | cons x rest ih =>
    intro h
    by_cases hx : x = c
    · simp [pySplitNE, hx] at h
    · have hx' : (x == c) = false := by simp [hx]
      simp only [pySplitNE, hx', Bool.false_eq_true, if_false] at h ⊢
      rw [← ih h]

/-- Inversion for a two-field split: the string decomposes at the unique
separator occurrence, and the second field is separator-free. -/
theorem pySplitNE_two (c : Char) : ∀ (s : Str) (b : Str),
    (pySplitNE c s).2 = [b] → s = (pySplitNE c s).1 ++ c :: b ∧ c ∉ b := by
  intro s
  induction s with
  | nil => intro b h; simp [pySplitNE] at h
  | cons x rest ih =>
    intro b h
    by_cases hx : x = c
    · subst hx
      simp only [pySplitNE, beq_self_eq_true, if_true, List.cons.injEq] at h ⊢
      obtain ⟨h1, h2⟩ := h
      have hr := pySplitNE_single x rest h2
      refine ⟨?_, ?_⟩
      · simp only [List.nil_append]
        rw [hr, h1]
      · rw [← h1]
        exact sep_not_mem_pySplitNE_fst x rest
    · have hx' : (x == c) = false := by simp [hx]
      simp only [pySplitNE, hx', Bool.false_eq_true, if_false] at h ⊢
      obtain ⟨h1, h2⟩ := ih b h
      exact ⟨by rw [List.cons_append, ← h1], h2⟩

/-- If the separator does not occur in the string, `pySplitNE` yields the
whole string as the single field. -/
theorem pySplitNE_of_not_mem {c : Char} : ∀ {s : Str},
    c ∉ s → pySplitNE c s = (s, []) := by
  intro s
  induction s with
  | nil => intro _; rfl
  | cons x rest ih =>
    intro h
    simp only [List.mem_cons, not_or] at h
    have hx : (x == c) = false := by simp [Ne.symm h.1]
    simp [pySplitNE, hx, ih h.2]

/-- Construction of a two-field split from a separator-free decomposition. -/
theorem pySplitNE_append {c : Char} : ∀ {a b : Str}, c ∉ a → c ∉ b →
    pySplitNE c (a ++ c :: b) = (a, [b]) := by
  intro a
  induction a with
  | nil =>
    intro b _ hb
    simp [pySplitNE, pySplitNE_of_not_mem hb]
  | cons x a' ih =>
    intro b ha hb
    simp only [List.mem_cons, not_or] at ha
    have hx : (x == c) = false := by simp [Ne.symm ha.1]
    simp [pySplitNE, hx, ih ha.2 hb]

/-- Characterisation: `splitAtLastDot` yields `none` exactly when the string has no dot. -/
theorem splitAtLastDot_none_iff : ∀ s : Str, splitAtLastDot s = none ↔ '.' ∉ s := by
  intro s
  induction s with
  | nil => simp [splitAtLastDot]
  | cons c rest ih =>
    rcases hr : splitAtLastDot rest with _ | p
    · by_cases hc : c = '.'
      · subst hc
        simp [splitAtLastDot, hr]
      · have hc' : (c == '.') = false := by simp [hc]
        simp [splitAtLastDot, hr, hc', Ne.symm hc, ih.mp hr]
    · have hdot : '.' ∈ rest := by
        by_contra hnot
        rw [← ih] at hnot
        simp [hr] at hnot
      simp [splitAtLastDot, hr, hdot]

/-- Inversion: a successful `splitAtLastDot` decomposes the string at a dot
with a dot-free tail (hence at the last dot). -/
theorem splitAtLastDot_some : ∀ (s d t : Str),
    splitAtLastDot s = some (d, t) → s = d ++ '.' :: t ∧ '.' ∉ t := by
  intro s
  induction s with
  | nil => intro d t h; simp [splitAtLastDot] at h
  | cons c rest ih =>
    intro d t h
    rcases hr : splitAtLastDot rest with _ | ⟨d', t'⟩
    · by_cases hc : c = '.'
      · subst hc
        simp [splitAtLastDot, hr] at h
        obtain ⟨hd, ht⟩ := h
        subst hd
        subst ht
        exact ⟨rfl, (splitAtLastDot_none_iff rest).mp hr⟩
      · have hc' : (c == '.') = false := by simp [hc]
        simp [splitAtLastDot, hr, hc'] at h
    · simp [splitAtLastDot, hr] at h
      obtain ⟨hd, ht⟩ := h
      obtain ⟨h1, h2⟩ := ih d' t' hr
      subst ht
      rw [← hd]
      simp [List.cons_append, ← h1]
      exact h2

/-- Construction: appending a dot-free tail after a dot splits there. -/
theorem splitAtLastDot_append : ∀ (d t : Str), '.' ∉ t →
    splitAtLastDot (d ++ '.' :: t) = some (d, t) := by
  intro d
  induction d with
  | nil =>
    intro t ht
    simp [splitAtLastDot, (splitAtLastDot_none_iff t).mpr ht]
  | cons c d' ih =>
    intro t ht
    simp [splitAtLastDot, ih t ht]


/-- The decision procedure `matchesEmail` decides exactly the language of
the source's e-mail regular expression
`^[a-zA-Z0-9._%+-]+@[a-zA-Z0-9.-]+\.[a-zA-Z]{2,}$`. -/
theorem matchesEmail_iff (s : Str) : matchesEmail s = true ↔ emailPatternProp s := by
  constructor
  · intro h
    unfold matchesEmail at h
    split at h
    · next lp dom heq =>
      split at h
      · next d t heq2 =>
        simp only [Bool.and_eq_true, decide_eq_true_eq, List.all_eq_true] at h
        obtain ⟨⟨hlp, hlpc⟩, ⟨⟨hdne, hdc⟩, htlen⟩, htc⟩ := h
        unfold pySplit at heq
        have hq1 : (pySplitNE '@' s).1 = lp := by injection heq
        have hq2 : (pySplitNE '@' s).2 = [dom] := by
          injection heq with h1 h2
        obtain ⟨hs, hdomfree⟩ := pySplitNE_two '@' s dom hq2
        obtain ⟨hdom, hdotfree⟩ := splitAtLastDot_some dom d t heq2
        rw [hq1] at hs
        exact ⟨lp, d, t, by rw [hs, hdom], hlp, hlpc, hdne, hdc, htlen, htc⟩
      · simp at h
    · simp at h
  · rintro ⟨lp, d, t, hs, hlp, hlpc, hdne, hdc, htlen, htc⟩
    have hat_lp : '@' ∉ lp := fun hm => absurd (hlpc _ hm) (by decide)
    have hdot_t : '.' ∉ t := fun hm => absurd (htc _ hm) (by decide)
    have hat_dom : '@' ∉ d ++ '.' :: t := by
      intro hm
      rcases List.mem_append.mp hm with hm | hm
      · exact absurd (hdc _ hm) (by decide)
      · rcases List.mem_cons.mp hm with hm | hm
        · exact absurd hm (by decide)
        · exact absurd (htc _ hm) (by decide)
    have hsplit : pySplitNE '@' s = (lp, [d ++ '.' :: t]) := by
      rw [hs]; exact pySplitNE_append hat_lp hat_dom
    have hlast : splitAtLastDot (d ++ '.' :: t) = some (d, t) :=
      splitAtLastDot_append d t hdot_t
    unfold matchesEmail pySplit
    rw [hsplit]
    simp only [hlast]
    simp [hlp, hdne, htlen, List.all_eq_true]
    exact ⟨hlpc, hdc, htc⟩

/-- The number of separator occurrences counts the later fields of the
split. -/
theorem pySplitNE_snd_length (c : Char) : ∀ s : Str,
    (pySplitNE c s).2.length = s.count c := by
  intro s
  induction s with
  | nil => simp [pySplitNE]
  | cons x rest ih =>
    by_cases hx : x = c
    · subst hx
      simp [pySplitNE, List.count_cons, ih]
    · have hx' : (x == c) = false := by simp [hx]
      simp [pySplitNE, hx', List.count_cons, ih]

/-- C5: splitting the recipient string on commas and trimming each entry
yields exactly (number of commas + 1) entries; each entry is matched
against the e-mail pattern, whose decision procedure recognises exactly the
regular expression's language; and when entries fail, the loader raises the
error enumerating exactly the invalid entries, otherwise it accepts the
entry list. -/
theorem recipients_split_validate (env : Env) :
    ((pySplit ',' (env.sendTo.getD [])).map pyStrip).length =
      (env.sendTo.getD []).count ',' + 1 ∧
    (∀ e, matchesEmail e = true ↔ emailPatternProp e) ∧
    (missingVars env = [] →
      (((pySplit ',' (env.sendTo.getD [])).map pyStrip).filter
          (fun e => !(matchesEmail e)) ≠ [] →
        validateEnvVars env = Except.error ("Invalid email format(s): ".data ++
          joinComma (((pySplit ',' (env.sendTo.getD [])).map pyStrip).filter
            (fun e => !(matchesEmail e))))) ∧
      (((pySplit ',' (env.sendTo.getD [])).map pyStrip).filter
          (fun e => !(matchesEmail e)) = [] →
        validateEnvVars env =
          Except.ok ((pySplit ',' (env.sendTo.getD [])).map pyStrip))) := by
  refine ⟨?_, matchesEmail_iff, fun hmiss => ⟨fun hinv => ?_, fun hinv => ?_⟩⟩
  · simp [pySplit, pySplitNE_snd_length]
  · simp [validateEnvVars, hmiss, hinv]
  · simp [validateEnvVars, hmiss, hinv]

/-- An environment whose recipient list contains one valid and one invalid
entry. -/
def c5Env : Env :=
  { email := some ("me@example.com".data), emailPassword := some ("pw".data),
    googleApiKey := some ("key".data), googleCseId := some ("cse".data),
    sendTo := some (" a@b.com ,bad".data), customQuery := [] }

/-- Witness for C5: `" a@b.com ,bad"` splits into 2 = 1 + 1 trimmed entries
and validation fails enumerating exactly the single invalid entry. -/
theorem recipients_split_validate_witness :
    missingVars c5Env = [] ∧
    ((pySplit ',' (c5Env.sendTo.getD [])).map pyStrip).length =
      (c5Env.sendTo.getD []).count ',' + 1 ∧
    ((pySplit ',' (c5Env.sendTo.getD [])).map pyStrip).filter
      (fun e => !(matchesEmail e)) = ["bad".data] ∧
    validateEnvVars c5Env = Except.error ("Invalid email format(s): ".data ++
      joinComma (((pySplit ',' (c5Env.sendTo.getD [])).map pyStrip).filter
        (fun e => !(matchesEmail e)))) :=
  ⟨by decide, (recipients_split_validate c5Env).1, by decide,
   ((recipients_split_validate c5Env).2.2 (by decide)).1 (by decide)⟩

/-- Membership in a stable descending insertion. -/
theorem mem_insertDesc {α : Type} (key : α → Nat) (x z : α) : ∀ l : List α,
    z ∈ insertDesc key x l ↔ z = x ∨ z ∈ l := by
  intro l
  induction l with
  | nil => simp [insertDesc]
  | cons y ys ih =>
    by_cases h : key y ≤ key x
    · simp [insertDesc, h]
    · simp [insertDesc, h, ih]
      tauto

/-- Insertion preserves descending sortedness. -/
theorem pairwise_insertDesc {α : Type} (key : α → Nat) (x : α) : ∀ l : List α,
    List.Pairwise (fun a b => key b ≤ key a) l →
    List.Pairwise (fun a b => key b ≤ key a) (insertDesc key x l) := by
  intro l
  induction l with
  | nil => intro _; simp [insertDesc]
  | cons y ys ih =>
    intro hp
    rcases List.pairwise_cons.mp hp with ⟨hy, hys⟩
    by_cases h : key y ≤ key x
    · simp only [insertDesc, h, if_true]
      refine List.pairwise_cons.mpr ⟨?_, hp⟩
      intro z hz
      rcases List.mem_cons.mp hz with hz | hz
      · exact hz ▸ h
      · exact Nat.le_trans (hy z hz) h
    · simp only [insertDesc, h, if_false]
      refine List.pairwise_cons.mpr ⟨?_, ih hys⟩
      intro z hz
      rcases (mem_insertDesc key x z ys).mp hz with hz | hz
      · exact hz ▸ Nat.le_of_lt (Nat.lt_of_not_le h)
      · exact hy z hz

/-- Output of `sortedBy` is sorted by descending key. -/
theorem sortedBy_pairwise {α : Type} (key : α → Nat) : ∀ l : List α,
    List.Pairwise (fun a b => key b ≤ key a) (sortedBy key l) := by
  intro l
  induction l with
  | nil => simp [sortedBy]
  | cons x xs ih => exact pairwise_insertDesc key x (sortedBy key xs) ih

/-- An inserted element with the filtered key lands in front of the other
elements with that key (it originates earlier in the input). -/
theorem filter_insertDesc_eq {α : Type} (key : α → Nat) (x : α) (s : Nat)
    (hs : key x = s) : ∀ l : List α,
    (insertDesc key x l).filter (fun y => key y == s) =
      x :: l.filter (fun y => key y == s) := by
  intro l
  induction l with
  | nil => simp [insertDesc, List.filter_cons, hs]
  | cons y ys ih =>
    by_cases h : key y ≤ key x
    · simp only [insertDesc, if_pos h]
      simp [List.filter_cons, hs]
    · have hy : (key y == s) = false := by
        have hlt : key x < key y := Nat.lt_of_not_le h
        simp
        omega
      simp only [insertDesc, h, if_false, List.filter_cons, hy,
        Bool.false_eq_true, if_false, ih]

/-- Insertion of an element with a different key leaves a key-filter
unchanged. -/
theorem filter_insertDesc_ne {α : Type} (key : α → Nat) (x : α) (s : Nat)
    (hs : key x ≠ s) : ∀ l : List α,
    (insertDesc key x l).filter (fun y => key y == s) =
      l.filter (fun y => key y == s) := by
  intro l
  induction l with
  | nil => simp [insertDesc, List.filter_cons, hs]
  | cons y ys ih =>
    by_cases h : key y ≤ key x
    · simp [insertDesc, h, List.filter_cons, hs]
    · simp only [insertDesc, h, if_false, List.filter_cons, ih]

/-- Stability: restricting the sorted output to any fixed key value gives
exactly the same subsequence as restricting the input. -/
theorem sortedBy_filter {α : Type} (key : α → Nat) (s : Nat) : ∀ l : List α,
    (sortedBy key l).filter (fun y => key y == s) =
      l.filter (fun y => key y == s) := by
  intro l
  induction l with
  | nil => rfl
  | cons x xs ih =>
    by_cases hs : key x = s
    · rw [sortedBy, filter_insertDesc_eq key x s hs, ih, List.filter_cons]
      simp [hs]
    · rw [sortedBy, filter_insertDesc_ne key x s hs, ih, List.filter_cons]
      simp [hs]

/-- C4: the curator sorts the deduplicated results descending by score —
the number of fixed keywords (software, engineer, developer, sde, intern,
2025) occurring case-insensitively as substrings of the title — and the
sort is stable: restricted to any fixed score, the rendered order equals
the deduplicated input order; the report renders exactly that sorted
sequence. -/
theorem curator_sort_desc_stable (results : List JobResult) :
    List.Pairwise (fun a b => score b ≤ score a)
      (sortedBy score (dedupResults results)) ∧
    (∀ s : Nat, (sortedBy score (dedupResults results)).filter
        (fun r => score r == s) =
      (dedupResults results).filter (fun r => score r == s)) ∧
    (∀ now1 now2, results ≠ [] → formatResults now1 now2 results =
      reportHeader now1 (dedupResults results).length ++
      renderEntries 1 (sortedBy score (dedupResults results)) ++
      reportFooter now2 (dedupResults results).length) := by
  refine ⟨sortedBy_pairwise score _, fun s => sortedBy_filter score s _, ?_⟩
  intro now1 now2 h
  simp [formatResults, h]

/-- Witness for C4 at a concrete one-result list: the report is the header,
the sorted rendering, and the footer. -/
theorem curator_sort_desc_stable_witness :
    ([sampleResult] ≠ ([] : List JobResult)) ∧
    formatResults ("T1".data) ("T2".data) [sampleResult] =
      reportHeader ("T1".data) (dedupResults [sampleResult]).length ++
      renderEntries 1 (sortedBy score (dedupResults [sampleResult])) ++
      reportFooter ("T2".data) (dedupResults [sampleResult]).length :=
  ⟨by simp,
   (curator_sort_desc_stable [sampleResult]).2.2 ("T1".data) ("T2".data) (by simp)⟩

/-- The dict-insertion condition of the dedup loop, as a predicate on the
link value: truthy (non-empty) and not yet a key. -/
def linkKeep (seen : List Str) (u : Str) : Bool := decide (u ≠ [] ∧ u ∉ seen)

/-- Deduplication keeps a subsequence of the input: kept entries are input
entries, unmerged, in input order. -/
theorem dedupAux_sublist : ∀ (l : List JobResult) (seen : List Str),
    List.Sublist (dedupAux seen l) l := by
  intro l
  induction l with
  | nil => intro seen; simp [dedupAux]
  | cons r rest ih =>
    intro seen
    by_cases hc : r.link ≠ [] ∧ r.link ∉ seen
    · simp only [dedupAux]
      rw [if_pos hc]
      exact List.Sublist.cons₂ r (ih (r.link :: seen))
    · simp only [dedupAux]
      rw [if_neg hc]
      exact List.Sublist.cons r (ih seen)

/-- Every kept entry has a truthy link that was not previously seen. -/
theorem dedupAux_mem : ∀ (l : List JobResult) (seen : List Str) (r : JobResult),
    r ∈ dedupAux seen l → r.link ≠ [] ∧ r.link ∉ seen := by
  intro l
  induction l with
  | nil => intro seen r h; simp [dedupAux] at h
  | cons x rest ih =>
    intro seen r h
    by_cases hc : x.link ≠ [] ∧ x.link ∉ seen
    · simp only [dedupAux] at h
      rw [if_pos hc] at h
      rcases List.mem_cons.mp h with h | h
      · subst h; exact hc
      · have hr := ih (x.link :: seen) r h
        exact ⟨hr.1, fun hm => hr.2 (List.mem_cons_of_mem _ hm)⟩
    · simp only [dedupAux] at h
      rw [if_neg hc] at h
      exact ih seen r h

/-- First-seen wins: every kept entry is the first entry of the input with
its link. -/
theorem dedupAux_find : ∀ (l : List JobResult) (seen : List Str) (r : JobResult),
    r ∈ dedupAux seen l →
    l.find? (fun x => x.link == r.link) = some r := by
  intro l
  induction l with
  | nil => intro seen r h; simp [dedupAux] at h
  | cons x rest ih =>
    intro seen r h
    by_cases hc : x.link ≠ [] ∧ x.link ∉ seen
    · simp only [dedupAux] at h
      rw [if_pos hc] at h
      rcases List.mem_cons.mp h with h | h
      · subst h
        simp [List.find?_cons_of_pos]
      · have hr := dedupAux_mem rest (x.link :: seen) r h
        have hxr : x.link ≠ r.link :=
          fun he => hr.2 (he ▸ List.mem_cons_self x.link seen)
        have hne : (x.link == r.link) = false := by simp [hxr]
        rw [List.find?_cons]
        simp only [hne]
        exact ih (x.link :: seen) r h
    · simp only [dedupAux] at h
      rw [if_neg hc] at h
      have hr := dedupAux_mem rest seen r h
      have hxr : x.link ≠ r.link := by
        intro he
        rcases Decidable.not_and_iff_or_not.mp hc with hc1 | hc2
        · exact hr.1 (he ▸ Decidable.not_not.mp hc1)
        · exact hr.2 (he ▸ Decidable.not_not.mp hc2)
      have hne : (x.link == r.link) = false := by simp [hxr]
      rw [List.find?_cons]
      simp only [hne]
      exact ih seen r h

/-- Kept links are pairwise distinct. -/
theorem dedupAux_links_nodup : ∀ (l : List JobResult) (seen : List Str),
    ((dedupAux seen l).map (fun r => r.link)).Nodup := by
  intro l
  induction l with
  | nil => intro seen; simp [dedupAux]
  | cons x rest ih =>
    intro seen
    by_cases hc : x.link ≠ [] ∧ x.link ∉ seen
    · simp only [dedupAux]
      rw [if_pos hc]
      simp only [List.map_cons, List.nodup_cons]
      refine ⟨?_, ih (x.link :: seen)⟩
      intro hm
      obtain ⟨r, hr, hlink⟩ := List.mem_map.mp hm
      exact (dedupAux_mem rest (x.link :: seen) r hr).2
        (hlink ▸ List.mem_cons_self x.link seen)
    · simp only [dedupAux]
      rw [if_neg hc]
      exact ih seen

/-- The set of kept links is the set of non-empty input links not in the
initial `seen` set. -/
theorem dedupAux_links_toFinset : ∀ (l : List JobResult) (seen : List Str),
    ((dedupAux seen l).map (fun r => r.link)).toFinset =
      ((l.map (fun r => r.link)).filter (linkKeep seen)).toFinset := by
  intro l
  induction l with
  | nil => intro seen; simp [dedupAux]
  | cons x rest ih =>
    intro seen
    by_cases hc : x.link ≠ [] ∧ x.link ∉ seen
    · have hk : linkKeep seen x.link = true := by
        simp only [linkKeep, decide_eq_true_eq]; exact hc
      simp only [dedupAux]
      rw [if_pos hc]
      simp only [List.map_cons, List.toFinset_cons, List.filter_cons, hk, if_true]
      rw [ih (x.link :: seen)]
      ext u
      simp only [Finset.mem_insert, List.mem_toFinset, List.mem_filter, linkKeep,
        decide_eq_true_eq, List.mem_cons, not_or, List.toFinset_cons]
      constructor
      · rintro (h | ⟨hm, hne, hnx, hns⟩)
        · exact Or.inl h
        · exact Or.inr ⟨hm, hne, hns⟩
      · rintro (h | ⟨hm, hne, hns⟩)
        · exact Or.inl h
        · by_cases hux : u = x.link
          · exact Or.inl hux
          · exact Or.inr ⟨hm, hne, hux, hns⟩
    · have hk : linkKeep seen x.link = false := by
        simp only [linkKeep, decide_eq_false_iff_not]; exact hc
      simp only [dedupAux]
      rw [if_neg hc]
      simp only [List.map_cons, List.filter_cons, hk, Bool.false_eq_true, if_false]
      exact ih seen

/-- The number of kept entries is the cardinality of the set of non-empty
link values of the input. -/
theorem dedupResults_length (l : List JobResult) :
    (dedupResults l).length =
      ((l.map (fun r => r.link)).filter (fun u => !u.isEmpty)).toFinset.card := by
  have h1 : (dedupResults l).length =
      ((dedupResults l).map (fun r => r.link)).length := by simp
  rw [h1, dedupResults, ← List.toFinset_card_of_nodup (dedupAux_links_nodup l [])]
  rw [dedupAux_links_toFinset l []]
  have h2 : (l.map (fun r => r.link)).filter (linkKeep []) =
      (l.map (fun r => r.link)).filter (fun u => !u.isEmpty) := by
    apply List.filter_congr
    intro u _
    cases u <;> simp [linkKeep]
  rw [h2]

/-- Every non-empty input link is represented among the kept entries. -/
theorem dedupResults_link_mem (l : List JobResult) (r : JobResult)
    (hr : r ∈ l) (hne : r.link ≠ []) :
    r.link ∈ (dedupResults l).map (fun r => r.link) := by
  have h := dedupAux_links_toFinset l []
  have hmem : r.link ∈ ((l.map (fun r => r.link)).filter (linkKeep [])).toFinset := by
    simp only [List.mem_toFinset, List.mem_filter, linkKeep, decide_eq_true_eq]
    exact ⟨List.mem_map.mpr ⟨r, hr, rfl⟩, hne, by simp⟩
  rw [← h] at hmem
  simpa using hmem

/-- A raw result list containing duplicate links, two of which are empty. -/
def c1Sample : List JobResult :=
  [⟨"Software Intern".data, "a.com".data, "s1".data, "q1".data⟩,
   ⟨"Dup".data, "a.com".data, "s2".data, "q2".data⟩,
   ⟨"NoLink1".data, [], "s3".data, "q1".data⟩,
   ⟨"NoLink2".data, [], "s4".data, "q2".data⟩]

/-- Counterexample to C1 as stated: for this list with duplicate links the
set of link values has cardinality 2 (the empty string is a link value of
the input), yet the dedup loop keeps only 1 entry — results with a falsy
(empty) link are discarded entirely, so no entry at all is kept for the
empty link and the kept count falls short of the link-set cardinality. -/
theorem dedup_empty_link_counterexample :
    c1Sample.map (fun r => r.link) = ["a.com".data, "a.com".data, [], []] ∧
    (c1Sample.map (fun r => r.link)).toFinset.card = 2 ∧
    (dedupResults c1Sample).length = 1 := by
  refine ⟨rfl, by decide, rfl⟩

/-- C1 (amended): the dedup loop keeps exactly one entry per unique
non-empty link — the first-encountered result for that link, unmerged and
in input order — discards every result whose link is empty, and the kept
count equals the cardinality of the set of non-empty link values of the
input. -/
theorem dedup_first_wins_nonempty (results : List JobResult) :
    List.Sublist (dedupResults results) results ∧
    (∀ r ∈ dedupResults results, r.link ≠ [] ∧
      results.find? (fun x => x.link == r.link) = some r) ∧
    ((dedupResults results).map (fun r => r.link)).Nodup ∧
    (∀ r ∈ results, r.link ≠ [] →
      r.link ∈ (dedupResults results).map (fun r => r.link)) ∧
    (dedupResults results).length =
      ((results.map (fun r => r.link)).filter (fun u => !u.isEmpty)).toFinset.card := by
  refine ⟨dedupAux_sublist results [], ?_, dedupAux_links_nodup results [],
    fun r hr hne => dedupResults_link_mem results r hr hne,
    dedupResults_length results⟩
  intro r hr
  exact ⟨(dedupAux_mem results [] r hr).1, dedupAux_find results [] r hr⟩

/-- A list with one duplicated non-empty link and one further link. -/
def c1WitnessList : List JobResult :=
  [⟨"A".data, "x.com".data, "s".data, "q".data⟩,
   ⟨"B".data, "x.com".data, "s2".data, "q2".data⟩,
   ⟨"C".data, "y.com".data, "s3".data, "q3".data⟩]

/-- Witness for the amended C1: the kept entry for the duplicated link is
the first-encountered one. -/
theorem dedup_first_wins_nonempty_witness :
    (⟨"A".data, "x.com".data, "s".data, "q".data⟩ : JobResult) ∈
      dedupResults c1WitnessList ∧
    c1WitnessList.find? (fun x =>
        x.link == (⟨"A".data, "x.com".data, "s".data, "q".data⟩ : JobResult).link) =
      some ⟨"A".data, "x.com".data, "s".data, "q".data⟩ ∧
    (dedupResults c1WitnessList).length = 2 :=
  ⟨by decide,
   ((dedup_first_wins_nonempty c1WitnessList).2.1
     ⟨"A".data, "x.com".data, "s".data, "q".data⟩ (by decide)).2,
   rfl⟩
